import Mathlib

/-!
Verification of the Taproot key-tweaking demonstration
(`src/code/chapter05/01_demonstrate_key_tweaking.py`).

The script computes the BIP341 tweak `t` of an internal key pair
`(d, P = d·G)` with a script commitment, applies it to the private scalar
(`d2 = (d + t) mod n`), derives the tweaked public key, and cross-checks
the result against the library Taproot address derivation.

The development embeds, over `ℕ`-valued bytes and scalars:
  * SHA-256 (the script delegates hashing to `hashlib.sha256`);
  * the tweak computation of lines 39-43 (`compute_tweak`);
  * the scalar tweaking of lines 62-64 (`apply_tweak`);
  * the key-object construction of line 67 (the external library
    range-checked constructor, modelled from the spec);
  * secp256k1 point arithmetic (the external curve-library collaborator,
    modelled from the spec) for the concrete end-to-end cross-check;
  * the tweaked-key derivation and the step-5 comparison over an abstract
    commutative monoid generated by `G`.

Definitions come first, then the supporting lemmas and the claim theorems.
-/

namespace TapTweakDemo

/-! ## Bytes and big-endian integers

Byte strings are `List ℕ` with entries below 256.  `fromBytesBE` is
Python `int.from_bytes(_, 'big')`; `toBytesBE` is the total core of
`int.to_bytes(len, 'big')`. -/

def fromBytesBE (l : List ℕ) : ℕ := l.foldl (fun a b => a * 256 + b) 0

def toBytesBE : ℕ → ℕ → List ℕ
  | 0, _ => []
  | k + 1, v => toBytesBE k (v / 256) ++ [v % 256]

/-- Python `int.to_bytes(len, 'big')`: raises `OverflowError` (here `none`)
exactly when the integer does not fit in `len` bytes. -/
def int_to_bytes (len v : ℕ) : Option (List ℕ) :=
  if v < 256 ^ len then some (toBytesBE len v) else none

def hexChars : List Char := "0123456789abcdef".toList

def byteToHex (b : ℕ) : List Char :=
  [hexChars.getD (b / 16 % 16) '0', hexChars.getD (b % 16) '0']

/-- Python `bytes.hex()`. -/
def bytesToHex (l : List ℕ) : String := String.mk (l.map byteToHex).flatten

/-! ## SHA-256 (the `hashlib.sha256` collaborator)

Word arithmetic is on `ℕ` reduced mod `2^32`. -/

def w32 : ℕ := 4294967296

def rotr (s x : ℕ) : ℕ := x % w32 / 2 ^ s + x % w32 % 2 ^ s * 2 ^ (32 - s)

def chF (e f g : ℕ) : ℕ := (e &&& f) ^^^ ((e ^^^ 4294967295) &&& g)

def majF (a b c : ℕ) : ℕ := (a &&& b) ^^^ (a &&& c) ^^^ (b &&& c)

def bigSigma0 (x : ℕ) : ℕ := rotr 2 x ^^^ rotr 13 x ^^^ rotr 22 x

def bigSigma1 (x : ℕ) : ℕ := rotr 6 x ^^^ rotr 11 x ^^^ rotr 25 x

def smallSigma0 (x : ℕ) : ℕ := rotr 7 x ^^^ rotr 18 x ^^^ x % w32 / 2 ^ 3

def smallSigma1 (x : ℕ) : ℕ := rotr 17 x ^^^ rotr 19 x ^^^ x % w32 / 2 ^ 10

abbrev Hash8 := ℕ × ℕ × ℕ × ℕ × ℕ × ℕ × ℕ × ℕ

/-- The eight FIPS 180-4 initial hash words, in decimal. -/
def shaInit : Hash8 :=
  (1779033703, 3144134277, 1013904242, 2773480762,
   1359893119, 2600822924, 528734635, 1541459225)

/-- The 64 FIPS 180-4 round constants, in decimal. -/
def K256 : List ℕ :=
  [1116352408, 1899447441, 3049323471, 3921009573, 961987163, 1508970993,
   2453635748, 2870763221, 3624381080, 310598401, 607225278, 1426881987,
   1925078388, 2162078206, 2614888103, 3248222580, 3835390401, 4022224774,
   264347078, 604807628, 770255983, 1249150122, 1555081692, 1996064986,
   2554220882, 2821834349, 2952996808, 3210313671, 3336571891, 3584528711,
   113926993, 338241895, 666307205, 773529912, 1294757372, 1396182291,
   1695183700, 1986661051, 2177026350, 2456956037, 2730485921, 2820302411,
   3259730800, 3345764771, 3516065817, 3600352804, 4094571909, 275423344,
   430227734, 506948616, 659060556, 883997877, 958139571, 1322822218,
   1537002063, 1747873779, 1955562222, 2024104815, 2227730452, 2361852424,
   2428436474, 2756734187, 3204031479, 3329325298]

def bytesToWords : List ℕ → List ℕ
  | a :: b :: c :: d :: rest => (((a * 256 + b) * 256 + c) * 256 + d) :: bytesToWords rest
  | _ => []

def extendWords (ws : List ℕ) : List ℕ :=
  (List.range 48).foldl
    (fun w _ =>
      w ++ [(smallSigma1 (w.getD (w.length - 2) 0) + w.getD (w.length - 7) 0 +
             smallSigma0 (w.getD (w.length - 15) 0) + w.getD (w.length - 16) 0) % w32])
    ws

def shaRound (s : Hash8) (kw : ℕ) : Hash8 :=
  let (a, b, c, d, e, f, g, h) := s
  let t1 := (h + bigSigma1 e + chF e f g + kw) % w32
  let t2 := (bigSigma0 a + majF a b c) % w32
  ((t1 + t2) % w32, a, b, c, (d + t1) % w32, e, f, g)

def processBlock (s : Hash8) (block : List ℕ) : Hash8 :=
  let ws := extendWords (bytesToWords block)
  let kws := (K256.zip ws).map fun p => (p.1 + p.2) % w32
  let r := kws.foldl shaRound s
  ((s.1 + r.1) % w32, (s.2.1 + r.2.1) % w32, (s.2.2.1 + r.2.2.1) % w32,
   (s.2.2.2.1 + r.2.2.2.1) % w32, (s.2.2.2.2.1 + r.2.2.2.2.1) % w32,
   (s.2.2.2.2.2.1 + r.2.2.2.2.2.1) % w32, (s.2.2.2.2.2.2.1 + r.2.2.2.2.2.2.1) % w32,
   (s.2.2.2.2.2.2.2 + r.2.2.2.2.2.2.2) % w32)

def padBytes (msg : List ℕ) : List ℕ :=
  msg ++ 128 :: List.replicate ((119 - msg.length % 64) % 64) 0 ++ toBytesBE 8 (8 * msg.length)

def chunks64 : ℕ → List ℕ → List (List ℕ)
  | 0, _ => []
  | _ + 1, [] => []
  | fuel + 1, l => l.take 64 :: chunks64 fuel (l.drop 64)

def wordBytes (x : ℕ) : List ℕ := [x / 2 ^ 24 % 256, x / 2 ^ 16 % 256, x / 2 ^ 8 % 256, x % 256]

def stateToBytes (s : Hash8) : List ℕ :=
  wordBytes s.1 ++ wordBytes s.2.1 ++ wordBytes s.2.2.1 ++ wordBytes s.2.2.2.1 ++
  wordBytes s.2.2.2.2.1 ++ wordBytes s.2.2.2.2.2.1 ++ wordBytes s.2.2.2.2.2.2.1 ++
  wordBytes s.2.2.2.2.2.2.2

def sha256 (msg : List ℕ) : List ℕ :=
  let padded := padBytes msg
  stateToBytes ((chunks64 padded.length padded).foldl processBlock shaInit)

/-! ## The tweak computation (script lines 39-43 and 62-64) -/

/-- ASCII bytes of the BIP341 domain-separation tag `"TapTweak"` (line 40). -/
def tapTweakTag : List ℕ := "TapTweak".toList.map Char.toNat

/-- Line 40: `tag_hash = hashlib.sha256(b'TapTweak').digest()`. -/
def tag_hash : List ℕ := sha256 tapTweakTag

/-- Lines 41-43: the tagged-hash tweak of an x-only internal public key and a
script commitment, returned as the raw 32-byte digest together with its
big-endian integer interpretation. -/
def compute_tweak (internal_pubkey_bytes script_commitment : List ℕ) : List ℕ × ℕ :=
  let tweak_preimage := tag_hash ++ tag_hash ++ internal_pubkey_bytes ++ script_commitment
  let tweak_hash := sha256 tweak_preimage
  (tweak_hash, fromBytesBE tweak_hash)

/-- Line 63: the secp256k1 group order `n`. -/
def curve_order : ℕ :=
  0xFFFFFFFFFFFFFFFFFFFFFFFFFFFFFFFEBAAEDCE6AF48A03BBFD25E8CD0364141

/-- Line 64: `tweaked_privkey_int = (internal_privkey_int + tweak_int) % curve_order`. -/
def apply_tweak (d t : ℕ) : ℕ := (d + t) % curve_order

/-! ## The key library interface (modelled from the spec)

Line 67 feeds the tweaked scalar through `int.to_bytes(32, 'big')` and the
library constructor `PrivateKey.from_bytes`. -/

/-- Modelled from the spec: the external key-library constructor
`PrivateKey.from_bytes` (line 67) accepts exactly the scalars in
`[1, n)` — spec section 7, private key not in `[1, n−1]` is rejected. -/
def from_bytes_ok (d2 : ℕ) : Bool := decide (1 ≤ d2 ∧ d2 < curve_order)

/-- Lines 62-67: the tweaked-scalar computation followed by the 32-byte
serialization and the key-object construction.  `none` models an uncaught
exception reaching the caller; the script itself contains no
tweak-range check of its own. -/
def script_step4 (d t : ℕ) : Option ℕ :=
  (int_to_bytes 32 (apply_tweak d t)).bind fun byts =>
    if from_bytes_ok (fromBytesBE byts) then some (fromBytesBE byts) else none

/-! ## Tweaked-key derivation over the curve group, abstractly

Spec section 6 treats the curve library as an opaque collaborator
providing `d·G` and `P + t·G`.  The operations below are stated over an
arbitrary additive commutative monoid with a distinguished generator `G`;
the secp256k1 facts used by the claims reduce to `curve_order • G = 0`. -/

/-- The library `get_public_key`: the point `d·G` (lines 24 and 68). -/
def public_key_of {Pt : Type} [AddCommMonoid Pt] (G : Pt) (d : ℕ) : Pt := d • G

/-- Spec section 4.1 `derive_tweaked_public_key`: `P2 = P + t·G` by point
addition on the public side. -/
def derive_tweaked_public_key {Pt : Type} [AddCommMonoid Pt] (G P : Pt) (t : ℕ) : Pt :=
  P + t • G

/-- Lines 62-68 and 102: the script computes
`tweaked_public_key = tweaked_private_key.get_public_key()` (line 68) and
then step 5 compares `tweaked_private_key.get_public_key()` against that
stored `tweaked_public_key` (line 102).  Both compared values come from
the same tweaked private scalar. -/
def script_verification {Pt : Type} [AddCommMonoid Pt] [DecidableEq Pt]
    (G : Pt) (d t : ℕ) : Bool :=
  let tweaked_privkey_int := apply_tweak d t
  let tweaked_public_key := public_key_of G tweaked_privkey_int
  decide (public_key_of G tweaked_privkey_int = tweaked_public_key)

/-- Lines 37-68 as one pure pipeline: tweak digest and integer, tweaked
private scalar, tweaked public key. -/
def demo_run {Pt : Type} [AddCommMonoid Pt] (G : Pt) (x c : List ℕ) (d : ℕ) :
    (List ℕ × ℕ) × ℕ × Pt :=
  let tw := compute_tweak x c
  let d2 := apply_tweak d tw.2
  (tw, d2, public_key_of G d2)

/-! ## The external curve library on secp256k1 (modelled from the spec)

For the concrete end-to-end cross-check of line 94 the collaborator is
instantiated with executable secp256k1 arithmetic: affine point addition,
and scalar multiplication carried out in Jacobian coordinates. -/

/-- secp256k1 base-field modulus. -/
def secp_p : ℕ :=
  0xFFFFFFFFFFFFFFFFFFFFFFFFFFFFFFFFFFFFFFFFFFFFFFFFFFFFFFFEFFFFFC2F

/-- x-coordinate of the secp256k1 generator. -/
def secp_gx : ℕ :=
  0x79BE667EF9DCBBAC55A06295CE870B07029BFCDB2DCE28D959F2815B16F81798

/-- y-coordinate of the secp256k1 generator. -/
def secp_gy : ℕ :=
  0x483ADA7726A3C4655DA4FBFC0E1108A8FD17B448A68554199C47D08FFB10D4B8

/-- Fuelled binary modular exponentiation. -/
def powMod : ℕ → ℕ → ℕ → ℕ → ℕ
  | 0, _, _, _ => 1
  | f + 1, b, e, m =>
    if e = 0 then 1 % m
    else
      let r := powMod f ((b * b) % m) (e / 2) m
      if e % 2 = 1 then (r * b) % m else r

/-- Inverse in the secp256k1 base field, by the Fermat little theorem. -/
def invF (a : ℕ) : ℕ := powMod 260 (a % secp_p) (secp_p - 2) secp_p

/-- Affine point: `none` is the point at infinity. -/
abbrev Point := Option (ℕ × ℕ)

/-- Modelled from the spec: the curve-library elliptic-curve point
addition on secp256k1 (spec section 4.1, `P + t·G` via standard
elliptic-curve point addition). -/
def padd (P Q : Point) : Point :=
  match P, Q with
  | none, q => q
  | p, none => p
  | some (x1, y1), some (x2, y2) =>
    if x1 = x2 then
      if (y1 + y2) % secp_p = 0 then none
      else
        let lam := (3 * x1 * x1 % secp_p) * invF (2 * y1 % secp_p) % secp_p
        let x3 := (lam * lam + 2 * secp_p - x1 - x2) % secp_p
        some (x3, (lam * (x1 + secp_p - x3) + secp_p - y1) % secp_p)
    else
      let lam := ((y2 + secp_p - y1) % secp_p) * invF ((x2 + secp_p - x1) % secp_p) % secp_p
      let x3 := (lam * lam + 2 * secp_p - x1 - x2) % secp_p
      some (x3, (lam * (x1 + secp_p - x3) + secp_p - y1) % secp_p)

/-- Jacobian point `(X, Y, Z)` representing affine `(X/Z², Y/Z³)`;
`Z = 0` is the point at infinity. -/
abbrev JPoint := ℕ × ℕ × ℕ

def jdouble (P : JPoint) : JPoint :=
  let (x, y, z) := P
  let ysq := y * y % secp_p
  let s := 4 * x * ysq % secp_p
  let m := 3 * (x * x % secp_p) % secp_p
  let x3 := (m * m % secp_p + 2 * secp_p - 2 * s) % secp_p
  let y3 := (m * ((s + secp_p - x3) % secp_p) % secp_p +
             8 * secp_p - 8 * (ysq * ysq % secp_p)) % secp_p
  (x3, y3, 2 * y * z % secp_p)

def jadd (P Q : JPoint) : JPoint :=
  let (x1, y1, z1) := P
  let (x2, y2, z2) := Q
  if z1 = 0 then Q
  else if z2 = 0 then P
  else
    let z1sq := z1 * z1 % secp_p
    let z2sq := z2 * z2 % secp_p
    let u1 := x1 * z2sq % secp_p
    let u2 := x2 * z1sq % secp_p
    let s1 := y1 * (z2sq * z2 % secp_p) % secp_p
    let s2 := y2 * (z1sq * z1 % secp_p) % secp_p
    if u1 = u2 then
      if s1 = s2 then jdouble P else (0, 1, 0)
    else
      let h := (u2 + secp_p - u1) % secp_p
      let r := (s2 + secp_p - s1) % secp_p
      let hsq := h * h % secp_p
      let hcu := hsq * h % secp_p
      let u1hsq := u1 * hsq % secp_p
      let x3 := (r * r % secp_p + 3 * secp_p - hcu - 2 * u1hsq) % secp_p
      let y3 := (r * ((u1hsq + secp_p - x3) % secp_p) % secp_p +
                 secp_p - s1 * hcu % secp_p) % secp_p
      (x3, y3, h * z1 % secp_p * z2 % secp_p)

/-- Semantically the identity; forces the coordinates of `P` to numerals
before continuing, keeping kernel evaluation depth bounded. -/
def forceJ (P : JPoint) (g : JPoint → JPoint) : JPoint :=
  if P.1 + P.2.1 + P.2.2 = 0 then g P else g P

/-- Fuelled double-and-add loop, least-significant bit first. -/
def jmulGo : ℕ → ℕ → JPoint → JPoint → JPoint
  | 0, _, _, acc => acc
  | f + 1, k, P, acc =>
    if k = 0 then acc
    else
      forceJ (jdouble P) fun q =>
        forceJ (if k % 2 = 1 then jadd acc P else acc) fun acc2 =>
          jmulGo f (k / 2) q acc2

def toAffinePoint (P : JPoint) : Point :=
  let (x, y, z) := P
  if z = 0 then none
  else
    let zi := invF z
    let zi2 := zi * zi % secp_p
    some (x * zi2 % secp_p, y * (zi2 * zi % secp_p) % secp_p)

/-- Modelled from the spec: the curve-library scalar-to-point
multiplication `k·P` on secp256k1 (spec section 4.1). -/
def pmul (k : ℕ) (P : Point) : Point :=
  match P with
  | none => none
  | some (x, y) => toAffinePoint (jmulGo 260 k (x, y, 1) (0, 1, 0))

/-- The secp256k1 generator as an affine point. -/
def secpG : Point := some (secp_gx, secp_gy)

/-! ## The concrete demonstration key (script lines 23-24 and 39)

Line 23 loads the internal private key from a compressed-testnet WIF
string.  Base58 decoding yields the 38-byte payload
`0xEF ‖ d (32 bytes) ‖ 0x01 ‖ checksum (4 bytes)`. -/

def b58Alphabet : List Char :=
  "123456789ABCDEFGHJKLMNPQRSTUVWXYZabcdefghijkmnopqrstuvwxyz".toList

def b58Decode (s : String) : ℕ :=
  s.toList.foldl (fun a ch => a * 58 + b58Alphabet.indexOf ch) 0

/-- The WIF literal of line 23. -/
def demo_wif : String := "cPeon9fBsW2BxwJTALj3hGzh9vm8C52Uqsce7MzXGS1iFJkPF4AT"

def demo_wif_payload : List ℕ := toBytesBE 38 (b58Decode demo_wif)

/-- The internal private scalar `d` encoded in the WIF string of line 23. -/
def demo_privkey_int : ℕ := fromBytesBE ((demo_wif_payload.drop 1).take 32)

/-- Line 39: the x-only serialization of an affine public key,
`bytes.fromhex(internal_public_key.to_x_only_hex())`. -/
def xonlyBytes : Point → List ℕ
  | none => []
  | some (x, _) => toBytesBE 32 x

/-- Line 24: `internal_public_key = internal_private_key.get_public_key()`. -/
def internal_public_point : Point := pmul demo_privkey_int secpG

/-- Line 32: `script_commitment = b''` (key-path-only spending). -/
def script_commitment : List ℕ := []

/-- Lines 39-43 on the demonstration inputs: the tweak integer `t`. -/
def demo_tweak_int : ℕ :=
  (compute_tweak (xonlyBytes internal_public_point) script_commitment).2

/-- Line 64 on the demonstration inputs: `d2 = (d + t) mod n`. -/
def demo_tweaked_privkey : ℕ := apply_tweak demo_privkey_int demo_tweak_int

/-- Line 68: the tweaked public key, derived from the tweaked private key. -/
def demo_tweaked_point : Point := pmul demo_tweaked_privkey secpG

/-- Line 93: `tweaked_public_key.to_hex()[2:]`, the x-only hex of the
script computed tweaked public key. -/
def script_output_key_hex : String := bytesToHex (xonlyBytes demo_tweaked_point)

/-- Modelled from the spec: BIP340 `lift_x` — the curve point with the
given x-coordinate and even y, as used by the library Taproot
derivation. -/
def lift_even : Point → Point
  | none => none
  | some (x, y) => if y % 2 = 0 then some (x, y) else some (x, (secp_p - y) % secp_p)

/-- Modelled from the spec: the external library
`get_taproot_address([]).to_witness_program()` of line 94 (spec section 8,
independent Taproot-address derivation).  Per the BIP341 contract of spec
section 6, with an empty script tree the witness program is the x-only
key of `lift_x(P) + t·G` where
`t = SHA256(SHA256("TapTweak") ‖ SHA256("TapTweak") ‖ xonly(P))`. -/
def library_output_key_hex : String :=
  let x := xonlyBytes internal_public_point
  let t := (compute_tweak x []).2
  bytesToHex (xonlyBytes (padd (lift_even internal_public_point) (pmul t secpG)))

set_option maxRecDepth 10000
set_option maxHeartbeats 4000000

/-! ## Supporting lemmas -/

theorem forceJ_id (P : JPoint) (g : JPoint → JPoint) : forceJ P g = g P := by
  unfold forceJ; exact ite_self _

theorem toBytesBE_length : ∀ k v : ℕ, (toBytesBE k v).length = k
  | 0, _ => rfl
  | k + 1, v => by simp [toBytesBE, toBytesBE_length k]

theorem foldl_toBytesBE : ∀ k v acc : ℕ,
    (toBytesBE k v).foldl (fun a b => a * 256 + b) acc = acc * 256 ^ k + v % 256 ^ k := by
  intro k
  induction k with
  | zero => intro v acc; simp [toBytesBE, Nat.mod_one]
  | succ k ih =>
    intro v acc
    have hsplit : v % 256 ^ (k + 1) = 256 * (v / 256 % 256 ^ k) + v % 256 := by
      rw [pow_succ, mul_comm (256 ^ k) 256, Nat.mod_mul, Nat.add_comm]
    rw [toBytesBE, List.foldl_append, ih]
    simp only [List.foldl_cons, List.foldl_nil]
    rw [hsplit, pow_succ]
    ring

theorem fromBytesBE_toBytesBE (k v : ℕ) (h : v < 256 ^ k) :
    fromBytesBE (toBytesBE k v) = v := by
  unfold fromBytesBE
  rw [foldl_toBytesBE, Nat.mod_eq_of_lt h]
  ring

theorem fromBytesBE_bound : ∀ (l : List ℕ) (acc : ℕ), (∀ b ∈ l, b < 256) →
    l.foldl (fun a b => a * 256 + b) acc < (acc + 1) * 256 ^ l.length := by
  intro l
  induction l with
  | nil => intro acc _; simp
  | cons b t ih =>
    intro acc h
    have hb : b < 256 := h b (List.mem_cons_self b t)
    have ht : ∀ x ∈ t, x < 256 := fun x hx => h x (List.mem_cons_of_mem _ hx)
    have step : t.foldl (fun a b => a * 256 + b) (acc * 256 + b) <
        (acc * 256 + b + 1) * 256 ^ t.length := ih (acc * 256 + b) ht
    have mono : (acc * 256 + b + 1) * 256 ^ t.length ≤ (acc + 1) * 256 * 256 ^ t.length :=
      Nat.mul_le_mul_right _ (by omega)
    calc (b :: t).foldl (fun a b => a * 256 + b) acc
        = t.foldl (fun a b => a * 256 + b) (acc * 256 + b) := rfl
      _ < (acc * 256 + b + 1) * 256 ^ t.length := step
      _ ≤ (acc + 1) * 256 * 256 ^ t.length := mono
      _ = (acc + 1) * 256 ^ (b :: t).length := by
          rw [List.length_cons, pow_succ]; ring

theorem fromBytesBE_lt {l : List ℕ} (h : ∀ b ∈ l, b < 256) :
    fromBytesBE l < 256 ^ l.length := by
  calc fromBytesBE l = l.foldl (fun a b => a * 256 + b) 0 := rfl
    _ < (0 + 1) * 256 ^ l.length := fromBytesBE_bound l 0 h
    _ = 256 ^ l.length := by ring

theorem int_to_bytes_of_lt {len v : ℕ} (h : v < 256 ^ len) :
    int_to_bytes len v = some (toBytesBE len v) := by
  simp [int_to_bytes, h]

theorem wordBytes_lt {b x : ℕ} (hb : b ∈ wordBytes x) : b < 256 := by
  simp only [wordBytes, List.mem_cons, List.not_mem_nil, or_false] at hb
  rcases hb with rfl | rfl | rfl | rfl <;> exact Nat.mod_lt _ (by norm_num)

theorem stateToBytes_length (s : Hash8) : (stateToBytes s).length = 32 := by
  simp [stateToBytes, wordBytes]

theorem stateToBytes_mem_lt {s : Hash8} {b : ℕ} (hb : b ∈ stateToBytes s) : b < 256 := by
  simp only [stateToBytes, List.mem_append] at hb
  rcases hb with (((((((hb | hb) | hb) | hb) | hb) | hb) | hb) | hb) <;> exact wordBytes_lt hb

theorem sha256_length (msg : List ℕ) : (sha256 msg).length = 32 :=
  stateToBytes_length _

theorem sha256_mem_lt {msg : List ℕ} {b : ℕ} (hb : b ∈ sha256 msg) : b < 256 :=
  stateToBytes_mem_lt hb

theorem nsmul_mod_order {Pt : Type} [AddCommMonoid Pt] (G : Pt)
    (hG : curve_order • G = 0) (m : ℕ) : m • G = (m % curve_order) • G := by
  conv_lhs => rw [← Nat.div_add_mod m curve_order]
  rw [add_nsmul, mul_nsmul, hG, nsmul_zero, zero_add]

/-! ## Sanity checks against external test vectors -/

/-- FIPS 180-4 test vector: SHA-256 of the empty message. -/
theorem sha256_test_vector_empty :
    bytesToHex (sha256 []) =
      "e3b0c44298fc1c149afbf4c8996fb92427ae41e4649b934ca495991b7852b855" := by decide

/-- FIPS 180-4 test vector: SHA-256 of the three-byte message `"abc"`. -/
theorem sha256_test_vector_abc :
    bytesToHex (sha256 [0x61, 0x62, 0x63]) =
      "ba7816bf8f01cfea414140de5dae2223b00361a396177a9cb410ff61f20015ad" := by decide

/-- The tag-hash constant of line 40 has its well-known value. -/
theorem tag_hash_value :
    bytesToHex tag_hash =
      "e80fe1639c9ca050e3af1b39c143c63e429cbceb15d940fbb5c5a1f4af57c5e9" := by decide

/-- Doubling through the Jacobian route agrees with the independent
affine addition formula. -/
theorem pmul_two_matches_padd : pmul 2 secpG = padd secpG secpG := by decide

/-- The generator has order `curve_order`: the embedded curve constants
and group operations are mutually consistent. -/
theorem generator_order : pmul curve_order secpG = none ∧ pmul 1 secpG = secpG := by
  constructor <;> decide

/-- The WIF string of line 23 decodes to a well-formed compressed-testnet
payload: version byte `0xEF`, compression flag `0x01`, and a valid
double-SHA-256 checksum.  This ties the Base58 and SHA-256 embeddings
together. -/
theorem demo_wif_wellformed :
    demo_wif_payload.take 1 = [0xEF] ∧
    (demo_wif_payload.drop 33).take 1 = [0x01] ∧
    demo_wif_payload.drop 34 = (sha256 (sha256 (demo_wif_payload.take 34))).take 4 := by
  refine ⟨by decide, by decide, by decide⟩

/-! ## Claim theorems -/

/-- Claim C1: for every private scalar d in [1, n) and every byte-string
commitment, with t the tweak integer that compute_tweak produces from the
x-only key bytes and the commitment, the public key derived from the
tweaked private scalar (d + t) mod n equals the point d·G + t·G; that is,
derive_tweaked_public_key applied to (d·G, t) equals the public key of
apply_tweak d t.  Stated over any commutative monoid whose generator G
satisfies n • G = 0, the secp256k1 group fact supplied by the curve
collaborator. -/
theorem C1_tweaked_key_agreement {Pt : Type} [AddCommMonoid Pt] (G : Pt)
    (hG : curve_order • G = 0) (d : ℕ) (hd : 1 ≤ d ∧ d < curve_order)
    (x c : List ℕ) :
    derive_tweaked_public_key G (public_key_of G d) ((compute_tweak x c).2) =
      public_key_of G (apply_tweak d ((compute_tweak x c).2)) := by
  show d • G + (compute_tweak x c).2 • G =
    ((d + (compute_tweak x c).2) % curve_order) • G
  rw [← nsmul_mod_order G hG, add_nsmul]

/-- Witness for C1 in the group ZMod n with generator 1, at d = 1 and the
all-zero key bytes with empty commitment. -/
theorem C1_tweaked_key_agreement_witness :
    (curve_order • (1 : ZMod curve_order) = 0) ∧ (1 ≤ 1 ∧ 1 < curve_order) ∧
    derive_tweaked_public_key (1 : ZMod curve_order)
        (public_key_of (1 : ZMod curve_order) 1) ((compute_tweak (List.replicate 32 0) []).2) =
      public_key_of (1 : ZMod curve_order)
        (apply_tweak 1 ((compute_tweak (List.replicate 32 0) []).2)) := by
  have hG : curve_order • (1 : ZMod curve_order) = 0 := by
    rw [nsmul_eq_mul, mul_one, ZMod.natCast_self]
  have hd : 1 ≤ 1 ∧ 1 < curve_order := ⟨le_rfl, by decide⟩
  exact ⟨hG, hd, C1_tweaked_key_agreement _ hG 1 hd _ _⟩

/-- Claim C2: for every 32-byte x-only internal key x and every
byte-string commitment c (the empty string included), compute_tweak
returns the digest SHA256(SHA256("TapTweak") ‖ SHA256("TapTweak") ‖ x ‖ c)
and the big-endian integer interpretation of that 32-byte digest. -/
theorem C2_compute_tweak_formula (x c : List ℕ) (hx : x.length = 32) :
    (compute_tweak x c).1 = sha256 (sha256 tapTweakTag ++ sha256 tapTweakTag ++ x ++ c) ∧
    (compute_tweak x c).2 = fromBytesBE (compute_tweak x c).1 ∧
    (compute_tweak x c).1.length = 32 :=
  ⟨rfl, rfl, sha256_length _⟩

/-- Witness for C2 at the all-zero 32-byte key and the empty commitment. -/
theorem C2_compute_tweak_formula_witness :
    (List.replicate 32 (0:ℕ)).length = 32 ∧
    ((compute_tweak (List.replicate 32 0) []).1 =
        sha256 (sha256 tapTweakTag ++ sha256 tapTweakTag ++ List.replicate 32 0 ++ []) ∧
      (compute_tweak (List.replicate 32 0) []).2 =
        fromBytesBE (compute_tweak (List.replicate 32 0) []).1 ∧
      (compute_tweak (List.replicate 32 0) []).1.length = 32) :=
  ⟨by simp, C2_compute_tweak_formula _ _ (by simp)⟩

/-- Claim C3: for every private scalar d and tweak integer t, apply_tweak
returns (d + t) mod n, and the returned value always lies in [0, n). -/
theorem C3_apply_tweak_range (d t : ℕ) :
    apply_tweak d t = (d + t) % curve_order ∧ apply_tweak d t < curve_order :=
  ⟨rfl, Nat.mod_lt _ (by decide)⟩

/-- Claim C4, code evaluation at a failing input: the step-5 comparison of
the script is true even at the arbitrary tweak value 7, which is not a
BIP341 tweak hash of anything — line 68 derives tweaked_public_key from
the same tweaked private key that line 102 re-derives, so the comparison
never inspects an independently computed P + t·G and cannot fail. -/
theorem C4_verification_not_independent :
    script_verification (1 : ZMod curve_order) 1 7 = true := by
  simp [script_verification]

/-- Claim C5 counterexample: at d = 1 and t = n (so t ≥ n), the embedded
lines 62-67 do not reject: the tweak is silently reduced mod n and the
computation returns the valid key 1 instead of surfacing an error. -/
theorem C5_large_tweak_accepted :
    curve_order ≤ curve_order ∧ script_step4 1 curve_order = some 1 :=
  ⟨le_rfl, by decide⟩

/-- Claim C5 amended: the computation of lines 62-67 fails exactly when
the tweaked scalar (d + t) mod n is zero — and then only through the
range check of the external key constructor, not an explicit InvalidTweak
check; a tweak integer t ≥ n on its own is never rejected but silently
reduced mod n. -/
theorem C5_reject_iff_zero_scalar (d t : ℕ) :
    script_step4 d t = none ↔ apply_tweak d t = 0 := by
  have hn : (0:ℕ) < curve_order := by decide
  have hlt : apply_tweak d t < curve_order := Nat.mod_lt _ hn
  have hfit : apply_tweak d t < 256 ^ 32 := lt_trans hlt (by decide)
  have hrt : fromBytesBE (toBytesBE 32 (apply_tweak d t)) = apply_tweak d t :=
    fromBytesBE_toBytesBE _ _ hfit
  have e1 : script_step4 d t =
      if from_bytes_ok (fromBytesBE (toBytesBE 32 (apply_tweak d t))) then
        some (fromBytesBE (toBytesBE 32 (apply_tweak d t))) else none := by
    unfold script_step4
    simp only [int_to_bytes_of_lt hfit, Option.some_bind]
  have e2 : (if from_bytes_ok (fromBytesBE (toBytesBE 32 (apply_tweak d t))) then
        some (fromBytesBE (toBytesBE 32 (apply_tweak d t))) else none) =
      if from_bytes_ok (apply_tweak d t) then some (apply_tweak d t) else none := by
    rw [hrt]
  rw [e1.trans e2]
  rcases Nat.eq_zero_or_pos (apply_tweak d t) with h0 | hpos
  · have hfb : from_bytes_ok 0 = false := by decide
    rw [h0, hfb]
    simp
  · have hne : apply_tweak d t ≠ 0 := Nat.pos_iff_ne_zero.mp hpos
    have hfb : from_bytes_ok (apply_tweak d t) = true := decide_eq_true ⟨hpos, hlt⟩
    rw [hfb]
    constructor
    · intro h; exact (Option.some_ne_none _ h).elim
    · intro h; exact (hne h).elim

/-- Claim C6: for the internal private key of the demonstration with an
empty script commitment, the x-only hex of the computed tweaked public
key equals the witness-program output key of the independent library
Taproot-address derivation for the same internal key. -/
theorem C6_output_key_cross_check :
    script_output_key_hex = library_output_key_hex := by decide

/-- The concrete output key of the demonstration, pinning the value both
derivation paths produce. -/
theorem demo_output_key_value :
    script_output_key_hex =
      "912591f39338714fce2e5b14dd7e0604e9448c24c1e369d7d1bf8f53b5f697a3" := by decide

/-- Claim C7: the tweaking pipeline is deterministic and idempotent: two
runs on the same internal key bytes, the same commitment and the same
private scalar produce identical tweak digest, tweak integer, tweaked
private scalar and tweaked public key. -/
theorem C7_deterministic {Pt : Type} [AddCommMonoid Pt] (G : Pt)
    (x1 c1 : List ℕ) (d1 : ℕ) (x2 c2 : List ℕ) (d2 : ℕ)
    (hx : x1 = x2) (hc : c1 = c2) (hd : d1 = d2) :
    demo_run G x1 c1 d1 = demo_run G x2 c2 d2 := by
  subst hx; subst hc; subst hd; rfl

/-- Witness for C7 at the all-zero key bytes, empty commitment and d = 1. -/
theorem C7_deterministic_witness :
    (List.replicate 32 (0:ℕ) = List.replicate 32 0) ∧ (([] : List ℕ) = []) ∧ ((1:ℕ) = 1) ∧
    demo_run (1 : ZMod curve_order) (List.replicate 32 0) [] 1 =
      demo_run (1 : ZMod curve_order) (List.replicate 32 0) [] 1 :=
  ⟨rfl, rfl, rfl,
    C7_deterministic 1 (List.replicate 32 0) [] 1 (List.replicate 32 0) [] 1 rfl rfl rfl⟩

/-- Claim C8: compute_tweak is total on all byte-string inputs — every
x-only key and every commitment, length 0, 32, 64 or more included,
produce a 32-byte digest whose bytes are below 256 and whose integer
interpretation is below 2^256; no error branch exists. -/
theorem C8_compute_tweak_total (x c : List ℕ) :
    (compute_tweak x c).1.length = 32 ∧
    ((compute_tweak x c).1.all fun b => decide (b < 256)) = true ∧
    (compute_tweak x c).2 < 2 ^ 256 := by
  refine ⟨sha256_length _, ?_, ?_⟩
  · exact List.all_eq_true.mpr fun b hb => decide_eq_true (sha256_mem_lt hb)
  · have hlen : (compute_tweak x c).1.length = 32 := sha256_length _
    have h1 : fromBytesBE (compute_tweak x c).1 < 256 ^ (compute_tweak x c).1.length :=
      fromBytesBE_lt fun b hb => sha256_mem_lt hb
    rw [hlen] at h1
    have h2 : (256:ℕ) ^ 32 = 2 ^ 256 := by norm_num
    exact h2 ▸ h1

/-- Claim C9: in the step-5 verification both compared values come from
the same tweaked private key (line 68 derives tweaked_public_key by
get_public_key on tweaked_private_key), so the comparison is true for
every private key and every tweak value, whether or not the tweak was
computed by the BIP341 formula. -/
theorem C9_step5_comparison_always_true {Pt : Type} [AddCommMonoid Pt] [DecidableEq Pt]
    (G : Pt) (d t : ℕ) : script_verification G d t = true := by
  simp [script_verification]

/-- Claim C10: the 32-byte big-endian serialization of the tweaked scalar
at line 67 never fails: (d + t) mod n always fits in 32 bytes, the
encoding has exactly 32 bytes, and it decodes back to the scalar. -/
theorem C10_serialization_never_overflows (d t : ℕ) :
    int_to_bytes 32 (apply_tweak d t) = some (toBytesBE 32 (apply_tweak d t)) ∧
    (toBytesBE 32 (apply_tweak d t)).length = 32 ∧
    fromBytesBE (toBytesBE 32 (apply_tweak d t)) = apply_tweak d t := by
  have hfit : apply_tweak d t < 256 ^ 32 :=
    lt_trans (Nat.mod_lt _ (by decide)) (by decide)
  exact ⟨int_to_bytes_of_lt hfit, toBytesBE_length _ _, fromBytesBE_toBytesBE _ _ hfit⟩

end TapTweakDemo
